import Mathlib

/-!
Verification of the nostrmart identity and blob-distribution core.

This file gives a shallow embedding of the functions in `src/nostr_auth.py`
and `src/blossom_client.py` and proves the specified properties about them.
Bytes are `Nat` values below 256, byte strings are `List Nat`, Python `str`
is Lean `String`, Python dicts with a fixed field set are structures, and
network responses are passed in explicitly as data.
-/

set_option maxRecDepth 4000

/-- Flattening map over lists, kept as a plain structural recursion so that it
reduces inside the kernel. -/
def concatMapL {α β : Type} (f : α → List β) : List α → List β
  | [] => []
  | x :: xs => f x ++ concatMapL f xs

/-! ## SHA-256 over byte lists

Embedding of `hashlib.sha256(...).hexdigest()` as used by
`calculate_event_id` and `BlossomClient.calculate_file_hash`. Words are `Nat`
reduced modulo `2^32` explicitly. -/

/-- `2^32`, the word modulus of SHA-256. -/
def m32 : Nat := 4294967296

/-- Right rotation of a 32-bit word. -/
def rotr (n x : Nat) : Nat := ((x >>> n) ||| (x <<< (32 - n))) % m32

/-- SHA-256 choice function. -/
def shaCh (x y z : Nat) : Nat := (x &&& y) ^^^ ((x ^^^ 4294967295) &&& z)

/-- SHA-256 majority function. -/
def shaMaj (x y z : Nat) : Nat := (x &&& y) ^^^ (x &&& z) ^^^ (y &&& z)

/-- SHA-256 big sigma 0. -/
def bigSigma0 (x : Nat) : Nat := (rotr 2 x) ^^^ (rotr 13 x) ^^^ (rotr 22 x)

/-- SHA-256 big sigma 1. -/
def bigSigma1 (x : Nat) : Nat := (rotr 6 x) ^^^ (rotr 11 x) ^^^ (rotr 25 x)

/-- SHA-256 small sigma 0. -/
def smallSigma0 (x : Nat) : Nat := (rotr 7 x) ^^^ (rotr 18 x) ^^^ (x >>> 3)

/-- SHA-256 small sigma 1. -/
def smallSigma1 (x : Nat) : Nat := (rotr 17 x) ^^^ (rotr 19 x) ^^^ (x >>> 10)

/-- The 64 SHA-256 round constants of FIPS 180-4, in decimal. -/
def shaK : List Nat :=
  [1116352408, 1899447441, 3049323471, 3921009573, 961987163, 1508970993,
   2453635748, 2870763221, 3624381080, 310598401, 607225278, 1426881987,
   1925078388, 2162078206, 2614888103, 3248222580, 3835390401, 4022224774,
   264347078, 604807628, 770255983, 1249150122, 1555081692, 1996064986,
   2554220882, 2821834349, 2952996808, 3210313671, 3336571891, 3584528711,
   113926993, 338241895, 666307205, 773529912, 1294757372, 1396182291,
   1695183700, 1986661051, 2177026350, 2456956037, 2730485921, 2820302411,
   3259730800, 3345764771, 3516065817, 3600352804, 4094571909, 275423344,
   430227734, 506948616, 659060556, 883997877, 958139571, 1322822218,
   1537002063, 1747873779, 1955562222, 2024104815, 2227730452, 2361852424,
   2428436474, 2756734187, 3204031479, 3329325298]

/-- The SHA-256 working state: eight 32-bit words. -/
structure SHAState where
  a : Nat
  b : Nat
  c : Nat
  d : Nat
  e : Nat
  f : Nat
  g : Nat
  h : Nat

/-- The SHA-256 initial hash value of FIPS 180-4, in decimal. -/
def shaH0 : SHAState :=
  ⟨1779033703, 3144134277, 1013904242, 2773480762,
   1359893119, 2600822924, 528734635, 1541459225⟩

/-- One SHA-256 compression round, fed the pair (schedule word, round constant). -/
def shaRound (s : SHAState) (wk : Nat × Nat) : SHAState :=
  let t1 := (s.h + bigSigma1 s.e + shaCh s.e s.f s.g + wk.2 + wk.1) % m32
  let t2 := (bigSigma0 s.a + shaMaj s.a s.b s.c) % m32
  ⟨(t1 + t2) % m32, s.a, s.b, s.c, (s.d + t1) % m32, s.e, s.f, s.g⟩

/-- Extend sixteen message words to the 64-entry message schedule. -/
def shaSchedule (ws : List Nat) : List Nat :=
  (List.range 48).foldl
    (fun acc _ =>
      let n := acc.length
      acc ++ [(smallSigma1 (acc.getD (n - 2) 0) + acc.getD (n - 7) 0 +
               smallSigma0 (acc.getD (n - 15) 0) + acc.getD (n - 16) 0) % m32])
    ws

/-- Big-endian packing of bytes into 32-bit words. -/
def bytesToWords : List Nat → List Nat
  | b0 :: b1 :: b2 :: b3 :: rest => (((b0 * 256 + b1) * 256 + b2) * 256 + b3) :: bytesToWords rest
  | _ => []

/-- Compress one 512-bit block (given as sixteen words) into the hash state. -/
def shaCompress (H : SHAState) (block : List Nat) : SHAState :=
  let s := ((shaSchedule block).zip shaK).foldl shaRound H
  ⟨(H.a + s.a) % m32, (H.b + s.b) % m32, (H.c + s.c) % m32, (H.d + s.d) % m32,
   (H.e + s.e) % m32, (H.f + s.f) % m32, (H.g + s.g) % m32, (H.h + s.h) % m32⟩

/-- SHA-256 padding: append 0x80, zeros and the 64-bit big-endian bit length. -/
def shaPad (msg : List Nat) : List Nat :=
  let len := msg.length
  let zeros := (119 - len % 64) % 64
  let bitLen := len * 8
  msg ++ [128] ++ List.replicate zeros 0 ++
    [bitLen >>> 56 % 256, bitLen >>> 48 % 256, bitLen >>> 40 % 256, bitLen >>> 32 % 256,
     bitLen >>> 24 % 256, bitLen >>> 16 % 256, bitLen >>> 8 % 256, bitLen % 256]

/-- Split a byte list into 64-byte chunks. The fuel argument is the list
length, which bounds the number of chunks, so the recursion is structural and
reduces in the kernel. -/
def chunk64F : Nat → List Nat → List (List Nat)
  | 0, _ => []
  | _, [] => []
  | fuel + 1, x :: xs => ((x :: xs).take 64) :: chunk64F fuel ((x :: xs).drop 64)

/-- Split a byte list into 64-byte chunks. -/
def chunk64 (l : List Nat) : List (List Nat) := chunk64F l.length l

/-- Big-endian bytes of one 32-bit word. -/
def wordToBytes (w : Nat) : List Nat :=
  [w / 16777216 % 256, w / 65536 % 256, w / 256 % 256, w % 256]

/-- The 32 digest bytes of a final SHA-256 state. -/
def shaOut (s : SHAState) : List Nat :=
  wordToBytes s.a ++ wordToBytes s.b ++ wordToBytes s.c ++ wordToBytes s.d ++
  wordToBytes s.e ++ wordToBytes s.f ++ wordToBytes s.g ++ wordToBytes s.h

/-- SHA-256 of a byte list, as the 32 digest bytes. -/
def sha256Bytes (msg : List Nat) : List Nat :=
  shaOut ((chunk64 (shaPad msg)).foldl (fun H b => shaCompress H (bytesToWords b)) shaH0)

/-! ## Lowercase hex -/

/-- The lowercase hex digit for a value below 16. -/
def hexDigitChar (d : Nat) : Char := (String.data ("0123456789abcdef")).getD d ('0')

/-- Two lowercase hex digits of a byte. -/
def byteToHex (b : Nat) : List Char := [hexDigitChar (b / 16), hexDigitChar (b % 16)]

/-- Lowercase hex string of a byte list, as produced by Python's
`hexdigest()` and `f-string %02x` formatting. -/
def bytesToHexStr (bs : List Nat) : String := String.mk (concatMapL byteToHex bs)

/-- `hashlib.sha256(msg).hexdigest()`. -/
def sha256Hex (msg : List Nat) : String := bytesToHexStr (sha256Bytes msg)

/-! ## UTF-8 encoding of strings -/

/-- UTF-8 bytes of one Unicode scalar value. -/
def utf8Char (c : Nat) : List Nat :=
  if c < 128 then [c]
  else if c < 2048 then [192 + c / 64, 128 + c % 64]
  else if c < 65536 then [224 + c / 4096, 128 + (c / 64) % 64, 128 + c % 64]
  else [240 + c / 262144, 128 + (c / 4096) % 64, 128 + (c / 64) % 64, 128 + c % 64]

/-- UTF-8 bytes of a string, i.e. Python's `s.encode('utf-8')`. -/
def strUtf8 (s : String) : List Nat := concatMapL (fun c => utf8Char c.toNat) s.data

/-! ## Compact JSON serialization

Embedding of `json.dumps(..., separators=(',', ':'), ensure_ascii=False)`
restricted to the shapes that occur in the source: integers, strings, and
(nested) arrays. -/

/-- Decimal digits of a natural number, most significant first. The fuel
argument keeps the recursion structural; `n + 1` units always suffice since
the quotient by ten shrinks every step. -/
def natToCharsF : Nat → Nat → List Char
  | 0, _ => []
  | fuel + 1, n => if n < 10 then [hexDigitChar n] else natToCharsF fuel (n / 10) ++ [hexDigitChar (n % 10)]

/-- Decimal digits of a natural number. -/
def natToChars (n : Nat) : List Char := natToCharsF (n + 1) n

/-- Python `repr` of an integer: decimal digits with a leading minus sign for
negative values. -/
def intToString (i : Int) : String :=
  match i with
  | Int.ofNat n => String.mk (natToChars n)
  | Int.negSucc n => String.mk ('-' :: natToChars (n + 1))

/-- JSON escape of one character as emitted by Python's encoder with
`ensure_ascii=False`: only the quote, the backslash and control characters
below 0x20 are escaped; everything else is passed through unescaped. -/
def jsonEscChar (c : Char) : List Char :=
  if c = '"' then ['\\', '"']
  else if c = '\\' then ['\\', '\\']
  else if c.toNat ≥ 32 then [c]
  else if c.toNat = 8 then ['\\', 'b']
  else if c.toNat = 9 then ['\\', 't']
  else if c.toNat = 10 then ['\\', 'n']
  else if c.toNat = 12 then ['\\', 'f']
  else if c.toNat = 13 then ['\\', 'r']
  else ['\\', 'u', '0', '0', hexDigitChar (c.toNat / 16), hexDigitChar (c.toNat % 16)]

/-- JSON serialization of a string: double quotes around the escaped body. -/
def jsonQuote (s : String) : String :=
  String.mk ('"' :: (concatMapL jsonEscChar s.data ++ ['"']))

/-- Join serialized elements with commas, the behaviour of `json.dumps` on a
list with separator `,`. -/
def commaJoin : List String → String
  | [] => ""
  | [x] => x
  | x :: y :: rest => x ++ "," ++ commaJoin (y :: rest)

/-- JSON serialization of one tag: an array of strings. -/
def serTag (t : List String) : String := "[" ++ commaJoin (t.map jsonQuote) ++ "]"

/-- JSON serialization of the tag list: an array of arrays of strings. -/
def serTags (tags : List (List String)) : String := "[" ++ commaJoin (tags.map serTag) ++ "]"

/-! ## Events and `calculate_event_id` -/

/-- A Nostr event as handled by `src/nostr_auth.py`: the seven-field dict with
all fields present and well-typed. -/
structure Event where
  id : String
  pubkey : String
  created_at : Int
  kind : Int
  tags : List (List String)
  content : String
  sig : String
deriving DecidableEq

/-- The serialized form hashed by `calculate_event_id`:
`json.dumps([0, pubkey, created_at, kind, tags, content], separators=(',', ':'), ensure_ascii=False)`. -/
def eventSerialize (e : Event) : String :=
  "[" ++ commaJoin
    [intToString 0, jsonQuote e.pubkey, intToString e.created_at, intToString e.kind,
     serTags e.tags, jsonQuote e.content] ++ "]"

/-- `calculate_event_id` from `src/nostr_auth.py`: SHA-256 hex digest of the
UTF-8 bytes of the serialized event. The `dict.get` defaults in the source
are irrelevant for a fully populated event, and `json.dumps` cannot raise on
these argument types, so the `except` branch is unreachable. -/
def calculate_event_id (e : Event) : String := sha256Hex (strUtf8 (eventSerialize e))

/-! ## Hex decoding, `bytes.fromhex` -/

/-- Value of a single hex digit, either case. -/
def hexVal (c : Char) : Option Nat :=
  if '0' ≤ c ∧ c ≤ '9' then some (c.toNat - 48)
  else if 'a' ≤ c ∧ c ≤ 'f' then some (c.toNat - 87)
  else if 'A' ≤ c ∧ c ≤ 'F' then some (c.toNat - 55)
  else none

/-- `bytes.fromhex`: pairs of hex digits to bytes, failing (raising, in the
source) on odd length or a non-hex character. -/
def bytesFromHex : List Char → Option (List Nat)
  | [] => some []
  | [_] => none
  | c1 :: c2 :: rest =>
    match hexVal c1, hexVal c2, bytesFromHex rest with
    | some h1, some h2, some bs => some ((h1 * 16 + h2) :: bs)
    | _, _, _ => none

/-! ## `verify_nostr_signature` -/

/-- `verify_nostr_signature` from `src/nostr_auth.py`. The first guard is
Python's truthiness test `not all([event_id, signature, event_pubkey])`,
which for string fields means emptiness. The final step is the source's
placeholder check: hex-decode the pubkey, signature and id (any decode
failure raises and yields `False`) and accept when the pubkey is 32 bytes
and the signature 64 bytes — no curve arithmetic. -/
def verify_nostr_signature (e : Event) (pubkey : String) : Bool :=
  if e.id = "" ∨ e.sig = "" ∨ e.pubkey = "" then false
  else if e.pubkey ≠ pubkey then false
  else if calculate_event_id e ≠ e.id then false
  else
    match bytesFromHex pubkey.data, bytesFromHex e.sig.data, bytesFromHex e.id.data with
    | some pkBytes, some sigBytes, some _ =>
      decide (pkBytes.length = 32) && decide (sigBytes.length = 64)
    | _, _, _ => false

/-! ## Key-format codec: `validate_npub`, `validate_hex_pubkey`,
`npub_to_hex`, `hex_to_npub` -/

/-- Python's `str.startswith`, over character lists (kept off the core string
primitives so that it reduces in the kernel). -/
def startsWithL : List Char → List Char → Bool
  | _, [] => true
  | [], _ :: _ => false
  | c :: cs, p :: ps => c == p && startsWithL cs ps

/-- ASCII lowercasing of one character, the effect of Python's `str.lower`
on the inputs this code deals in. -/
def toLowerASCII (c : Char) : Char :=
  if 'A' ≤ c ∧ c ≤ 'Z' then Char.ofNat (c.toNat + 32) else c

/-- `validate_npub` from `src/nostr_auth.py`: non-empty, starts with the
`npub` prefix and is 63 characters long. -/
def validate_npub (npub : String) : Bool :=
  if npub = "" then false
  else startsWithL npub.data (String.data ("npub")) && npub.data.length == 63

/-- `validate_hex_pubkey` from `src/nostr_auth.py`: non-empty, 64 characters,
and every character of the lowercased string is a hex digit. -/
def validate_hex_pubkey (h : String) : Bool :=
  if h = "" then false
  else h.data.length == 64 &&
    (h.data.map toLowerASCII).all (fun c => (String.data ("0123456789abcdef")).contains c)

/-- The bech32 alphabet literal used by `npub_to_hex`. -/
def CHARSET : String := "qpzry9x8gf2tvdw0s3jn54khce6mua7l"

/-- First index of a character in a list, i.e. Python's `str.index` guarded by
the preceding membership test. -/
def idxOf (c : Char) : List Char → Option Nat
  | [] => none
  | x :: xs => if x = c then some 0 else (idxOf c xs).map (fun n => n + 1)

/-- The source's inner `while bits >= 8` loop: emit high bytes from the
accumulator while at least eight bits are pending. Fueled by `bits`, which
strictly bounds the number of iterations, so the recursion is structural. -/
def bech32DrainF : Nat → List Nat → Nat → Nat → List Nat × Nat
  | 0, bytes, _, bits => (bytes, bits)
  | fuel + 1, bytes, acc, bits =>
    if bits ≥ 8 then bech32DrainF fuel (bytes ++ [(acc >>> (bits - 8)) &&& 255]) acc (bits - 8)
    else (bytes, bits)

/-- One iteration of the source's 5-bit repacking loop: shift in five bits,
then drain complete bytes. The state is (emitted bytes, accumulator, pending
bit count). -/
def bech32Step (st : List Nat × Nat × Nat) (v : Nat) : List Nat × Nat × Nat :=
  let acc := (st.2.1 <<< 5) ||| v
  let bits := st.2.2 + 5
  let r := bech32DrainF bits st.1 acc bits
  (r.1, acc, r.2)

/-- `npub_to_hex` from `src/nostr_auth.py`: after format validation, strip the
four-character prefix, map every character to its index in `CHARSET` (any
character outside the alphabet fails), drop the last six values as checksum,
repack 5-bit groups into bytes and render them as lowercase hex. -/
def npub_to_hex (npub : String) : Option String :=
  if validate_npub npub = false then none
  else
    match (npub.data.drop 4).mapM (fun c => idxOf c CHARSET.data) with
    | none => none
    | some decoded =>
      let vals := decoded.take (decoded.length - 6)
      let r := vals.foldl bech32Step ([], 0, 0)
      some (bytesToHexStr r.1)

/-- `hex_to_npub` from `src/nostr_auth.py`: after format validation, prepend
the `npub` prefix to the first 59 characters of the hex string. The source
comment itself calls this a mock encoding. -/
def hex_to_npub (h : String) : Option String :=
  if validate_hex_pubkey h = false then none
  else some ("npub" ++ String.mk (h.data.take 59))

/-! ## `validate_auth_event` -/

/-- Failure message of the kind check in `validate_auth_event`. -/
def msgWrongKind : String := "Invalid event kind for authentication"

/-- Failure message of the timestamp check in `validate_auth_event`. -/
def msgTimestamp : String := "Event timestamp is too old or in the future"

/-- Failure message of the challenge-tag check in `validate_auth_event`. -/
def msgChallengeTag : String := "Challenge not found in event tags"

/-- Failure message of the signature check in `validate_auth_event`. -/
def msgInvalidSig : String := "Invalid signature"

/-- Success message of `validate_auth_event`. -/
def msgValid : String := "Valid authentication event"

/-- The source's challenge-tag scan: some tag has at least two entries, the
first being the challenge label and the second the expected value. -/
def hasChallengeTag (tags : List (List String)) (challenge : String) : Bool :=
  tags.any fun t =>
    match t with
    | t0 :: t1 :: _ => t0 == "challenge" && t1 == challenge
    | _ => false

/-- `validate_auth_event` from `src/nostr_auth.py`, with the current time
passed explicitly in place of `int(time.time())`. The event is structurally
well-formed here, so the required-field loop of the source cannot fail and is
omitted; the remaining checks run in source order: kind 22242, timestamp
within `max_age` seconds either way, challenge tag present, signature valid. -/
def validate_auth_event (e : Event) (challenge : String) (now : Int)
    (max_age : Nat := 300) : Bool × String :=
  if e.kind ≠ 22242 then (false, msgWrongKind)
  else if (now - e.created_at).natAbs > max_age then (false, msgTimestamp)
  else if hasChallengeTag e.tags challenge = false then (false, msgChallengeTag)
  else if verify_nostr_signature e e.pubkey = false then (false, msgInvalidSig)
  else (true, msgValid)

/-! ## `NostrAuthManager`: the challenge store

The manager's `active_challenges` dict is modelled as an association list
with Python-dict update semantics (overwrite in place, append when absent);
`time.time()` and `generate_challenge()` are passed in explicitly. -/

/-- One stored challenge: the `{'challenge': ..., 'created_at': ...}` dict. -/
structure ChallengeEntry where
  challenge : String
  created_at : Int
deriving DecidableEq

/-- The `active_challenges` dict. -/
abbrev Store := List (String × ChallengeEntry)

/-- Dict lookup. -/
def Store.get : Store → String → Option ChallengeEntry
  | [], _ => none
  | (k, v) :: rest, key => if k = key then some v else Store.get rest key

/-- Dict assignment: overwrite the existing entry in place, append otherwise. -/
def Store.set : Store → String → ChallengeEntry → Store
  | [], key, val => [(key, val)]
  | (k, v) :: rest, key, val =>
    if k = key then (key, val) :: rest else (k, v) :: Store.set rest key val

/-- Dict deletion. -/
def Store.erase : Store → String → Store
  | [], _ => []
  | (k, v) :: rest, key => if k = key then rest else (k, v) :: Store.erase rest key

/-- `NostrAuthManager.create_challenge`: store the freshly generated challenge
with its issue time under the session key, overwriting any previous entry,
and return it. The random `generate_challenge()` output and `time.time()`
are the `challenge` and `now` parameters. -/
def create_challenge (st : Store) (session_id challenge : String) (now : Int) :
    String × Store :=
  (challenge, Store.set st session_id ⟨challenge, now⟩)

/-- `NostrAuthManager.validate_challenge`: fail when the session has no entry,
fail when the candidate differs from the stored value, fail and delete the
entry when it is older than 300 seconds, succeed otherwise. Returns the
result together with the updated store. -/
def validate_challenge (st : Store) (session_id challenge : String) (now : Int) :
    Bool × Store :=
  match Store.get st session_id with
  | none => (false, st)
  | some stored =>
    if stored.challenge ≠ challenge then (false, st)
    else if now - stored.created_at > 300 then (false, Store.erase st session_id)
    else (true, st)

/-- `NostrAuthManager.consume_challenge`: delete the entry when present. -/
def consume_challenge (st : Store) (session_id : String) : Store :=
  Store.erase st session_id

/-! ## Composed challenge validation

The spec describes a single `validate(session_key, candidate_event)`
operation. The repository holds its pieces — `NostrAuthManager` for the
challenge store and `validate_auth_event` for the event checks — but never
composes them into one function (`routes.py` keeps the challenge in the web
session instead), so the composition itself is modelled from the spec. -/

/-- The spec's distinct validation outcomes (§4.4). -/
inductive AuthReason where
  | ok
  | noChallengeFound
  | challengeExpired
  | wrongKind
  | timestampOutOfWindow
  | challengeTagMissing
  | invalidSignature
deriving DecidableEq

/-- Map the failure strings of `validate_auth_event` to the spec's reasons. -/
def reasonOfMsg (msg : String) : AuthReason :=
  if msg = msgWrongKind then AuthReason.wrongKind
  else if msg = msgTimestamp then AuthReason.timestampOutOfWindow
  else if msg = msgChallengeTag then AuthReason.challengeTagMissing
  else if msg = msgInvalidSig then AuthReason.invalidSignature
  else AuthReason.ok

/-- Modelled from the spec: the composed
`validate(session_key, candidate_event)` of §4.4, which the repository never
assembles from its pieces. Look up the stored challenge (its absence and
expiry handled as in `NostrAuthManager.validate_challenge`, including the
deletion on expiry), then run the source's `validate_auth_event` against the
stored value. -/
def validate (st : Store) (sessionKey : String) (e : Event) (now : Int) :
    (Bool × AuthReason) × Store :=
  match Store.get st sessionKey with
  | none => ((false, AuthReason.noChallengeFound), st)
  | some entry =>
    if now - entry.created_at > 300 then
      ((false, AuthReason.challengeExpired), Store.erase st sessionKey)
    else
      let r := validate_auth_event e entry.challenge now 300
      ((r.1, reasonOfMsg r.2), st)

/-- Transcription of claim C5's description of `validate`, used as the
comparison point: each of the checks with its distinct reason, in the stated
order, succeeding only when all pass. -/
def validateClaimC5 (st : Store) (sessionKey : String) (e : Event) (now : Int) :
    (Bool × AuthReason) × Store :=
  match Store.get st sessionKey with
  | none => ((false, AuthReason.noChallengeFound), st)
  | some entry =>
    if now - entry.created_at > 300 then
      ((false, AuthReason.challengeExpired), Store.erase st sessionKey)
    else if e.kind ≠ 22242 then ((false, AuthReason.wrongKind), st)
    else if (now - e.created_at).natAbs > 300 then
      ((false, AuthReason.timestampOutOfWindow), st)
    else if hasChallengeTag e.tags entry.challenge = false then
      ((false, AuthReason.challengeTagMissing), st)
    else if verify_nostr_signature e e.pubkey = false then
      ((false, AuthReason.invalidSignature), st)
    else ((true, AuthReason.ok), st)

/-! ## `BlossomClient`

Network interaction is made explicit: each configured server is paired with
the response the network would deliver for it, `none` standing for a raised
exception (connection error, timeout, or unparseable JSON body), which the
source logs and absorbs. -/

/-- The descriptor dict returned by a successful upload. -/
structure BlobDescriptor where
  url : String
  sha256 : String
  size : Nat
  type : Option String
  server : String
  uploaded : Int
deriving DecidableEq

/-- `BlossomClient.calculate_file_hash`. -/
def calculate_file_hash (fileData : List Nat) : String := sha256Hex fileData

/-- `BlossomClient._upload_to_server` for one server, given the response
`(status, optional url field of the JSON body)` or `none` for an exception:
on status 200 build the descriptor from the locally computed hash, otherwise
log and return nothing. -/
def upload_to_server (server : String) (fileData : List Nat)
    (contentType : Option String) (fileHash : String)
    (resp : Option (Nat × Option String)) (now : Int) : Option BlobDescriptor :=
  match resp with
  | none => none
  | some (status, urlField) =>
    if status = 200 then
      some
        { url := urlField.getD (server ++ "/" ++ fileHash), sha256 := fileHash,
          size := fileData.length, type := contentType, server := server, uploaded := now }
    else none

/-- The per-server loop of `BlossomClient.upload_blob`: first success wins,
failures continue to the next server. -/
def upload_blob_go (servers : List (String × Option (Nat × Option String)))
    (fileData : List Nat) (contentType : Option String) (fileHash : String)
    (now : Int) : Option BlobDescriptor :=
  match servers with
  | [] => none
  | (s, resp) :: rest =>
    match upload_to_server s fileData contentType fileHash resp now with
    | some r => some r
    | none => upload_blob_go rest fileData contentType fileHash now

/-- `BlossomClient.upload_blob`: hash the bytes once, then try the servers in
order; `none` when every server fails. -/
def upload_blob (servers : List (String × Option (Nat × Option String)))
    (fileData : List Nat) (contentType : Option String) (now : Int) :
    Option BlobDescriptor :=
  upload_blob_go servers fileData contentType (calculate_file_hash fileData) now

/-- `BlossomClient.get_blob`, with each server's `(status, body)` response (or
`none` for an exception) supplied: on a 200 response recompute the hash of
the received bytes and return them only when it matches the requested hash;
on a mismatch log and fall through to the next server. -/
def get_blob (servers : List (String × Option (Nat × List Nat)))
    (sha256Hash : String) : Option (List Nat) :=
  match servers with
  | [] => none
  | (_, resp) :: rest =>
    match resp with
    | none => get_blob rest sha256Hash
    | some (status, body) =>
      if status = 200 then
        if calculate_file_hash body = sha256Hash then some body
        else get_blob rest sha256Hash
      else get_blob rest sha256Hash

/-- The counting loop of `BlossomClient.delete_blob`: `success_count`,
incremented on a 200, 204 or 404 response, exceptions skipped. -/
def delete_blob_go : List (String × Option Nat) → Nat → Nat
  | [], acc => acc
  | (_, resp) :: rest, acc =>
    match resp with
    | none => delete_blob_go rest acc
    | some status =>
      if status ∈ ([200, 204, 404] : List Nat) then delete_blob_go rest (acc + 1)
      else delete_blob_go rest acc

/-- `BlossomClient.delete_blob`: issue the delete to every server and succeed
when at least one server answered 200, 204 or 404. -/
def delete_blob (servers : List (String × Option Nat)) : Bool :=
  decide (0 < delete_blob_go servers 0)

/-! ## Definitions supporting the claims -/

/-- Claim C2's description of the canonical event id, written from the spec's
words: the lowercase-hex SHA-256 digest of the UTF-8 bytes of the compact
JSON serialization of the 6-element array
`[0, pubkey, created_at, kind, tags, content]` in exactly that order. -/
def spec_canonical_event_id (pubkey : String) (created_at kind : Int)
    (tags : List (List String)) (content : String) : String :=
  bytesToHexStr (sha256Bytes (strUtf8
    ("[" ++ commaJoin
      [intToString 0, jsonQuote pubkey, intToString created_at, intToString kind,
       serTags tags, jsonQuote content] ++ "]")))

/-- Build an event whose `id` is its own canonical hash, i.e. a correctly
identified event (the hash ignores the `id` and `sig` fields). -/
def mkSigned (pubkey : String) (created_at kind : Int) (tags : List (List String))
    (content sig : String) : Event :=
  { id := calculate_event_id ⟨"", pubkey, created_at, kind, tags, content, sig⟩,
    pubkey := pubkey, created_at := created_at, kind := kind, tags := tags,
    content := content, sig := sig }

/-- A valid correctly identified event used as a concrete instance for C1. -/
def c1Base : Event := mkSigned ("aa") 1000 1 [["challenge", "x"]] ("hello") ("bb")

/-- `c1Base` with one byte of content changed and the stale id kept. -/
def c1Mutated : Event := { c1Base with content := "hellp" }

/-- A correctly identified event with a 64-hex-char pubkey and a 128-hex-char
signature, the concrete instance for C3. -/
def c3Event : Event :=
  mkSigned (String.mk (List.replicate 64 'a')) 100 22242 []
    ("") (String.mk (List.replicate 128 'b'))

/-- The all-zero 32-byte key in hex, the concrete instance for C4. -/
def zeros64 : String := String.mk (List.replicate 64 '0')

/-- A per-server upload attempt that does not succeed: an exception or a
non-200 status. -/
def uploadFails (resp : Option (Nat × Option String)) : Bool :=
  match resp with
  | none => true
  | some (status, _) => status != 200

/-- Sanity vector: SHA-256 of the empty message. -/
example : sha256Hex [] = "e3b0c44298fc1c149afbf4c8996fb92427ae41e4649b934ca495991b7852b855" := by
  decide

/-- Sanity vector: SHA-256 of the ASCII bytes of abc. -/
example :
    sha256Hex (strUtf8 ("abc")) =
      "ba7816bf8f01cfea414140de5dae2223b00361a396177a9cb410ff61f20015ad" := by
  decide

/-- Sanity vector: the serialized form of a minimal event, cross-checked
against the Python `json.dumps` output. -/
example :
    eventSerialize ⟨"", "", 0, 1, [], "", ""⟩ = "[0,\"\",0,1,[],\"\"]" := by
  decide

/-- Sanity vector: event id of a minimal event, cross-checked against
`sha256sum` of the corresponding serialized bytes. -/
example :
    calculate_event_id ⟨"", "", 0, 1, [], "", ""⟩ =
      "b9a2e34e404849f4881c68e0f6af8c3d042e2ed7f1e430706b5c010c49b87e98" := by
  decide

/-- Sanity vector: event id of an event whose content exercises quote, newline
and non-ASCII escaping, cross-checked against `sha256sum` of the serialized
bytes produced by Python's encoder. -/
example :
    calculate_event_id ⟨"x", "p", 1, 1, [["t", "v"]], "a\"b\nc é", "y"⟩ =
      "1b81df34ccc4b03294b039d46a1634004b28889d0e164d6bf0ba783cd9f9a949" := by
  decide

/-! ## Supporting lemmas -/

/-- The four big-endian bytes of a word are bytes. -/
theorem wordToBytes_lt (w : Nat) : ∀ b ∈ wordToBytes w, b < 256 := by
  intro b hb
  simp [wordToBytes] at hb
  rcases hb with rfl | rfl | rfl | rfl <;> omega

/-- A SHA-256 digest consists of 32 bytes. -/
theorem shaOut_length (s : SHAState) : (shaOut s).length = 32 := by
  simp [shaOut, wordToBytes]

/-- Every entry of a SHA-256 digest is a byte. -/
theorem shaOut_lt (s : SHAState) : ∀ b ∈ shaOut s, b < 256 := by
  intro b hb
  simp only [shaOut, List.mem_append] at hb
  rcases hb with ((((((h | h) | h) | h) | h) | h) | h) | h <;> exact wordToBytes_lt _ _ h

/-- The digest byte list of `sha256Bytes` has length 32. -/
theorem sha256Bytes_length (msg : List Nat) : (sha256Bytes msg).length = 32 :=
  shaOut_length _

/-- Every entry of `sha256Bytes` is a byte. -/
theorem sha256Bytes_lt (msg : List Nat) : ∀ b ∈ sha256Bytes msg, b < 256 :=
  shaOut_lt _

/-- Hex rendering of a byte list doubles the length. -/
theorem concatMapL_byteToHex_length (bs : List Nat) :
    (concatMapL byteToHex bs).length = 2 * bs.length := by
  induction bs with
  | nil => rfl
  | cons b rest ih => simp [concatMapL, byteToHex, ih]; omega

/-- Length of the hex string of a byte list. -/
theorem bytesToHexStr_length (bs : List Nat) : (bytesToHexStr bs).length = 2 * bs.length :=
  concatMapL_byteToHex_length bs

/-- Decoding a single rendered hex digit recovers its value. -/
theorem hexVal_hexDigitChar (d : Nat) (hd : d < 16) : hexVal (hexDigitChar d) = some d := by
  interval_cases d <;> decide

/-- `bytes.fromhex` inverts lowercase hex rendering of bytes. -/
theorem bytesFromHex_hex (bs : List Nat) (h : ∀ b ∈ bs, b < 256) :
    bytesFromHex (concatMapL byteToHex bs) = some bs := by
  induction bs with
  | nil => rfl
  | cons b rest ih =>
    have hb : b < 256 := h b (by simp)
    have h1 : b / 16 < 16 := by omega
    have h2 : b % 16 < 16 := by omega
    have hrest : bytesFromHex (concatMapL byteToHex rest) = some rest :=
      ih (fun x hx => h x (by simp [hx]))
    show bytesFromHex
        (hexDigitChar (b / 16) :: hexDigitChar (b % 16) :: concatMapL byteToHex rest) =
      some (b :: rest)
    rw [bytesFromHex, hexVal_hexDigitChar _ h1, hexVal_hexDigitChar _ h2, hrest]
    have : b / 16 * 16 + b % 16 = b := by omega
    simp [this]

/-- An event id computed by `calculate_event_id` is 64 characters long. -/
theorem calculate_event_id_length (e : Event) : (calculate_event_id e).length = 64 := by
  show (bytesToHexStr (sha256Bytes (strUtf8 (eventSerialize e)))).length = 64
  rw [bytesToHexStr_length, sha256Bytes_length]

/-- An event id computed by `calculate_event_id` hex-decodes to its digest
bytes. -/
theorem bytesFromHex_calculate_event_id (e : Event) :
    bytesFromHex (calculate_event_id e).data =
      some (sha256Bytes (strUtf8 (eventSerialize e))) := by
  show bytesFromHex (concatMapL byteToHex (sha256Bytes (strUtf8 (eventSerialize e)))) =
    some (sha256Bytes (strUtf8 (eventSerialize e)))
  exact bytesFromHex_hex _ (sha256Bytes_lt _)

/-- `calculate_event_id` reads neither the `id` nor the `sig` field. -/
theorem calculate_event_id_set_id_sig (e : Event) (i s : String) :
    calculate_event_id { e with id := i, sig := s } = calculate_event_id e := rfl

/-- A `mkSigned` event is correctly identified: its id is its canonical hash. -/
theorem mkSigned_valid (pubkey : String) (created_at kind : Int)
    (tags : List (List String)) (content sig : String) :
    (mkSigned pubkey created_at kind tags content sig).id =
      calculate_event_id (mkSigned pubkey created_at kind tags content sig) := rfl

/-- Assignment followed by lookup of the same key finds the new entry. -/
theorem Store.get_set (st : Store) (k : String) (v : ChallengeEntry) :
    Store.get (Store.set st k v) k = some v := by
  induction st with
  | nil => simp [Store.set, Store.get]
  | cons hd rest ih =>
    obtain ⟨k0, v0⟩ := hd
    by_cases h : k0 = k
    · subst h
      simp [Store.set, Store.get]
    · simp [Store.set, Store.get, h, ih]

/-- A key present in an updated store was present before or is the updated
key. -/
theorem Store.mem_keys_set (st : Store) (k : String) (v : ChallengeEntry) (x : String)
    (hx : x ∈ (Store.set st k v).map Prod.fst) : x ∈ st.map Prod.fst ∨ x = k := by
  induction st with
  | nil =>
    simp only [Store.set, List.map_cons, List.map_nil, List.mem_singleton] at hx
    exact Or.inr hx
  | cons hd rest ih =>
    obtain ⟨k0, v0⟩ := hd
    have hset : Store.set ((k0, v0) :: rest) k v =
        if k0 = k then (k, v) :: rest else (k0, v0) :: Store.set rest k v := rfl
    by_cases h : k0 = k
    · rw [hset, if_pos h, List.map_cons, List.mem_cons] at hx
      rcases hx with rfl | hx
      · exact Or.inr rfl
      · exact Or.inl (List.mem_cons_of_mem _ hx)
    · rw [hset, if_neg h, List.map_cons, List.mem_cons] at hx
      rcases hx with rfl | hx
      · exact Or.inl (List.mem_cons_self _ _)
      · rcases ih hx with h1 | h1
        · exact Or.inl (List.mem_cons_of_mem _ h1)
        · exact Or.inr h1

/-- Dict assignment preserves key uniqueness. -/
theorem Store.nodup_set (st : Store) (k : String) (v : ChallengeEntry)
    (h : (st.map Prod.fst).Nodup) : ((Store.set st k v).map Prod.fst).Nodup := by
  induction st with
  | nil => simp [Store.set]
  | cons hd rest ih =>
    obtain ⟨k0, v0⟩ := hd
    rw [List.map_cons, List.nodup_cons] at h
    have hset : Store.set ((k0, v0) :: rest) k v =
        if k0 = k then (k, v) :: rest else (k0, v0) :: Store.set rest k v := rfl
    by_cases hk : k0 = k
    · rw [hset, if_pos hk, List.map_cons, List.nodup_cons]
      rw [← hk]
      exact h
    · rw [hset, if_neg hk, List.map_cons, List.nodup_cons]
      refine ⟨fun hmem => ?_, ih h.2⟩
      rcases Store.mem_keys_set rest k v k0 hmem with h1 | h1
      · exact h.1 h1
      · exact hk h1

/-! ## The claims -/

/-- C1: for every valid (correctly identified) event, mutating the content, a
tag entry, the timestamp or the kind while keeping the stale id makes the
recomputed canonical hash differ from the claimed id (collision-freedom of
SHA-256 at this pair of serializations is the explicit hypothesis
`hnocollision`), and verification then returns false for every signature
value whatsoever — the check fails at the hash comparison, before any
signature inspection. -/
theorem c1_mutation_without_resigning_fails_verification
    (e eMut : Event) (pk : String)
    (hvalid : e.id = calculate_event_id e)
    (hid : eMut.id = e.id)
    (_hmut : eMut.content ≠ e.content ∨ eMut.tags ≠ e.tags ∨
            eMut.created_at ≠ e.created_at ∨ eMut.kind ≠ e.kind)
    (hnocollision : calculate_event_id eMut ≠ calculate_event_id e) :
    ∀ sig : String, verify_nostr_signature { eMut with sig := sig } pk = false := by
  intro sig
  have hcore : calculate_event_id { eMut with sig := sig } ≠
      ({ eMut with sig := sig } : Event).id := by
    show calculate_event_id eMut ≠ eMut.id
    rw [hid, hvalid]
    exact hnocollision
  unfold verify_nostr_signature
  by_cases h1 : (({ eMut with sig := sig } : Event).id = "" ∨
      ({ eMut with sig := sig } : Event).sig = "" ∨
      ({ eMut with sig := sig } : Event).pubkey = "")
  · rw [if_pos h1]
  · rw [if_neg h1]
    by_cases h2 : ({ eMut with sig := sig } : Event).pubkey ≠ pk
    · rw [if_pos h2]
    · rw [if_neg h2, if_pos hcore]

/-- Witness for C1: a concrete correctly identified event whose content is
mutated by one byte; every hypothesis holds by evaluation and verification
rejects it for an arbitrary signature. -/
theorem c1_witness :
    c1Base.id = calculate_event_id c1Base ∧
    c1Mutated.id = c1Base.id ∧
    c1Mutated.content ≠ c1Base.content ∧
    calculate_event_id c1Mutated ≠ calculate_event_id c1Base ∧
    verify_nostr_signature { c1Mutated with sig := "cc" } ("aa") = false :=
  ⟨rfl, rfl, by decide, by decide,
   c1_mutation_without_resigning_fails_verification c1Base c1Mutated ("aa")
     rfl rfl (Or.inl (by decide)) (by decide) ("cc")⟩

/-- C2: the canonical event id is the lowercase-hex SHA-256 digest of the
UTF-8 bytes of the compact JSON serialization of
`[0, pubkey, created_at, kind, tags, content]` in that order, and the
function is deterministic: it depends only on those five field values, so
two events agreeing on them (whatever their `id` and `sig`) hash alike. -/
theorem c2_canonical_id_deterministic (e f : Event)
    (hp : e.pubkey = f.pubkey) (hc : e.created_at = f.created_at)
    (hk : e.kind = f.kind) (ht : e.tags = f.tags) (hco : e.content = f.content) :
    calculate_event_id e =
      spec_canonical_event_id e.pubkey e.created_at e.kind e.tags e.content ∧
    calculate_event_id e = calculate_event_id f := by
  constructor
  · rfl
  · unfold calculate_event_id eventSerialize
    rw [hp, hc, hk, ht, hco]

/-- Witness for C2: two concrete events sharing the five hashed fields but
differing in id and sig. -/
theorem c2_witness :
    calculate_event_id ⟨"id1", "p", 5, 1, [["a", "b"]], "c", "s1"⟩ =
      spec_canonical_event_id ("p") 5 1 [["a", "b"]] ("c") ∧
    calculate_event_id ⟨"id1", "p", 5, 1, [["a", "b"]], "c", "s1"⟩ =
      calculate_event_id ⟨"id2", "p", 5, 1, [["a", "b"]], "c", "s2"⟩ :=
  c2_canonical_id_deterministic ⟨"id1", "p", 5, 1, [["a", "b"]], "c", "s1"⟩
    ⟨"id2", "p", 5, 1, [["a", "b"]], "c", "s2"⟩ rfl rfl rfl rfl rfl

/-- C3: the current verifier performs no curve math — for any event whose
pubkey field hex-decodes to 32 bytes and matches the supplied key, whose sig
hex-decodes to 64 bytes, and whose recomputed canonical hash equals the
claimed id, verification succeeds regardless of the signature's value. -/
theorem c3_lengths_only_verification (e : Event) (pkBytes sigBytes : List Nat)
    (hpk : bytesFromHex e.pubkey.data = some pkBytes) (hpk32 : pkBytes.length = 32)
    (hsig : bytesFromHex e.sig.data = some sigBytes) (hsig64 : sigBytes.length = 64)
    (hid : calculate_event_id e = e.id) :
    verify_nostr_signature e e.pubkey = true := by
  have hidlen : e.id.length = 64 := by rw [← hid]; exact calculate_event_id_length e
  have hidne : ¬ (e.id = "") := by
    intro h
    rw [h] at hidlen
    simp at hidlen
  have hpkne : ¬ (e.pubkey = "") := by
    intro h
    rw [h] at hpk
    have h0 : bytesFromHex (String.data "") = some [] := rfl
    have hnil : ([] : List Nat) = pkBytes := Option.some.inj (h0.symm.trans hpk)
    rw [← hnil] at hpk32
    exact absurd hpk32 (by decide)
  have hsigne : ¬ (e.sig = "") := by
    intro h
    rw [h] at hsig
    have h0 : bytesFromHex (String.data "") = some [] := rfl
    have hnil : ([] : List Nat) = sigBytes := Option.some.inj (h0.symm.trans hsig)
    rw [← hnil] at hsig64
    exact absurd hsig64 (by decide)
  have hidhex := bytesFromHex_calculate_event_id e
  rw [hid] at hidhex
  unfold verify_nostr_signature
  rw [if_neg (by simp [hidne, hpkne, hsigne]), if_neg (by simp),
    if_neg (by simp [hid]), hpk, hsig, hidhex]
  simp [hpk32, hsig64]

/-- Witness for C3: a concrete correctly identified event with a 32-byte
pubkey and an arbitrary 64-byte signature is accepted. -/
theorem c3_witness :
    bytesFromHex c3Event.pubkey.data = some (List.replicate 32 170) ∧
    bytesFromHex c3Event.sig.data = some (List.replicate 64 187) ∧
    calculate_event_id c3Event = c3Event.id ∧
    verify_nostr_signature c3Event c3Event.pubkey = true :=
  ⟨by decide, by decide, rfl,
   c3_lengths_only_verification c3Event (List.replicate 32 170) (List.replicate 64 187)
     (by decide) (by decide) (by decide) (by decide) rfl⟩

/-- C4: the key-codec round trip fails on the code. For the all-zero 32-byte
key, `hex_to_npub` truncates the hex to its first 59 characters behind an
`npub` prefix, and `npub_to_hex` then bech32-decodes those characters into 33
bytes of unrelated data, so `decode(encode(k))` returns a 66-character string
different from `k`. -/
theorem c4_roundtrip_fails_on_code :
    (hex_to_npub zeros64).bind npub_to_hex =
      some ("7bdef7bdef7bdef7bdef7bdef7bdef7bdef7bdef7bdef7bdef7bdef7bdef7bdef7") ∧
    (hex_to_npub zeros64).bind npub_to_hex ≠ some zeros64 := by
  constructor
  · decide
  · decide

/-- `reasonOfMsg` sends the kind-failure message to `wrongKind`. -/
theorem reasonOfMsg_wrongKind : reasonOfMsg msgWrongKind = AuthReason.wrongKind := by decide

/-- `reasonOfMsg` sends the timestamp-failure message to
`timestampOutOfWindow`. -/
theorem reasonOfMsg_timestamp : reasonOfMsg msgTimestamp = AuthReason.timestampOutOfWindow := by
  decide

/-- `reasonOfMsg` sends the tag-failure message to `challengeTagMissing`. -/
theorem reasonOfMsg_challengeTag : reasonOfMsg msgChallengeTag = AuthReason.challengeTagMissing := by
  decide

/-- `reasonOfMsg` sends the signature-failure message to `invalidSignature`. -/
theorem reasonOfMsg_invalidSig : reasonOfMsg msgInvalidSig = AuthReason.invalidSignature := by
  decide

/-- `reasonOfMsg` sends the success message to `ok`. -/
theorem reasonOfMsg_valid : reasonOfMsg msgValid = AuthReason.ok := by decide

/-- C5: the composed validation agrees exactly, result, reason and updated
store alike, with the claim's description: `noChallengeFound` when no entry
exists; `challengeExpired` with the entry deleted when the challenge is older
than 300 seconds; then `wrongKind`, `timestampOutOfWindow`,
`challengeTagMissing` and `invalidSignature` in that order, succeeding only
when every check passes. -/
theorem c5_validate_matches_claim (st : Store) (sessionKey : String) (e : Event)
    (now : Int) :
    validate st sessionKey e now = validateClaimC5 st sessionKey e now := by
  unfold validate validateClaimC5
  cases Store.get st sessionKey with
  | none => rfl
  | some entry =>
    dsimp only
    by_cases h1 : now - entry.created_at > 300
    · simp [h1]
    · by_cases h2 : e.kind ≠ 22242
      · simp [validate_auth_event, h1, h2, reasonOfMsg_wrongKind]
      · by_cases h3 : (now - e.created_at).natAbs > 300
        · simp [validate_auth_event, h1, h2, h3, reasonOfMsg_timestamp]
        · by_cases h4 : hasChallengeTag e.tags entry.challenge = false
          · simp [validate_auth_event, h1, h2, h3, h4, reasonOfMsg_challengeTag]
          · by_cases h5 : verify_nostr_signature e e.pubkey = false
            · simp [validate_auth_event, h1, h2, h3, h4, h5, reasonOfMsg_invalidSig]
            · simp [validate_auth_event, h1, h2, h3, h4, h5, reasonOfMsg_valid]

/-- C6: issuing a second challenge for a session overwrites the first — the
old value fails validation at any time afterwards, the store maps the session
to the new challenge, and key uniqueness (at most one live challenge per
session) is preserved. -/
theorem c6_second_challenge_invalidates_first (st : Store) (k c1 c2 : String)
    (t1 t2 now : Int) (hne : c1 ≠ c2) (hnodup : (st.map Prod.fst).Nodup) :
    (validate_challenge (create_challenge (create_challenge st k c1 t1).2 k c2 t2).2
        k c1 now).1 = false ∧
    Store.get (create_challenge (create_challenge st k c1 t1).2 k c2 t2).2 k =
      some ⟨c2, t2⟩ ∧
    (((create_challenge (create_challenge st k c1 t1).2 k c2 t2).2).map Prod.fst).Nodup := by
  have hget : Store.get (Store.set (Store.set st k ⟨c1, t1⟩) k ⟨c2, t2⟩) k =
      some ⟨c2, t2⟩ := Store.get_set _ _ _
  refine ⟨?_, hget, ?_⟩
  · show (validate_challenge (Store.set (Store.set st k ⟨c1, t1⟩) k ⟨c2, t2⟩) k c1 now).1 =
      false
    unfold validate_challenge
    rw [hget]
    have hc : c2 ≠ c1 := fun h => hne h.symm
    simp [hc]
  · show ((Store.set (Store.set st k ⟨c1, t1⟩) k ⟨c2, t2⟩).map Prod.fst).Nodup
    exact Store.nodup_set _ _ _ (Store.nodup_set _ _ _ hnodup)

/-- Witness for C6: two successive challenges on an empty store; the first
value is rejected, the new one is stored, keys stay unique. -/
theorem c6_witness :
    (validate_challenge (create_challenge (create_challenge [] "s" "x" 0).2 "s" "y" 1).2
        "s" "x" 2).1 = false ∧
    Store.get (create_challenge (create_challenge [] "s" "x" 0).2 "s" "y" 1).2 "s" =
      some ⟨"y", 1⟩ ∧
    (((create_challenge (create_challenge [] "s" "x" 0).2 "s" "y" 1).2).map Prod.fst).Nodup :=
  c6_second_challenge_invalidates_first [] "s" "x" "y" 0 1 2 (by decide) (by simp)

/-- C7: fetch integrity — whenever `get_blob` returns bytes, their locally
recomputed SHA-256 equals the requested hash, whatever each server answered;
a 200 response with mismatching bytes is skipped like a failure. -/
theorem c7_fetch_integrity (servers : List (String × Option (Nat × List Nat)))
    (h : String) (b : List Nat)
    (hret : get_blob servers h = some b) :
    calculate_file_hash b = h := by
  induction servers with
  | nil => exact absurd hret (by simp [get_blob])
  | cons hd rest ih =>
    obtain ⟨s, resp⟩ := hd
    cases resp with
    | none =>
      simp only [get_blob] at hret
      exact ih hret
    | some p =>
      obtain ⟨status, body⟩ := p
      simp only [get_blob] at hret
      by_cases h200 : status = 200
      · rw [if_pos h200] at hret
        by_cases hmatch : calculate_file_hash body = h
        · rw [if_pos hmatch] at hret
          injection hret with hbb
          rw [← hbb]
          exact hmatch
        · rw [if_neg hmatch] at hret
          exact ih hret
      · rw [if_neg h200] at hret
        exact ih hret

/-- Witness for C7: a single server serving the bytes of `hi` under their
true hash; the fetch succeeds and the returned bytes hash to the request. -/
theorem c7_witness :
    get_blob [(("s" : String), some (200, [104, 105]))]
      ("8f434346648f6b96df89dda901c5176b10a6d83961dd3c1ac88b59b2dc327aa4") =
      some [104, 105] ∧
    calculate_file_hash [104, 105] =
      "8f434346648f6b96df89dda901c5176b10a6d83961dd3c1ac88b59b2dc327aa4" :=
  ⟨by decide,
   c7_fetch_integrity [(("s" : String), some (200, [104, 105]))]
     ("8f434346648f6b96df89dda901c5176b10a6d83961dd3c1ac88b59b2dc327aa4")
     [104, 105] (by decide)⟩

/-- A failed upload attempt yields no descriptor from
`upload_to_server`. -/
theorem upload_to_server_fail (server : String) (d : List Nat) (ct : Option String)
    (fh : String) (resp : Option (Nat × Option String)) (now : Int)
    (hf : uploadFails resp = true) :
    upload_to_server server d ct fh resp now = none := by
  cases resp with
  | none => rfl
  | some p =>
    obtain ⟨status, u⟩ := p
    have hne : status ≠ 200 := by simpa [uploadFails] using hf
    simp [upload_to_server, hne]

/-- When every server fails, the upload loop returns nothing. -/
theorem upload_blob_go_all_fail (servers : List (String × Option (Nat × Option String)))
    (d : List Nat) (ct : Option String) (fh : String) (now : Int)
    (hall : ∀ p ∈ servers, uploadFails p.2 = true) :
    upload_blob_go servers d ct fh now = none := by
  induction servers with
  | nil => rfl
  | cons hd rest ih =>
    obtain ⟨s, resp⟩ := hd
    simp only [upload_blob_go]
    rw [upload_to_server_fail _ _ _ _ _ _ (hall (s, resp) (by simp))]
    exact ih (fun p hp => hall p (by simp [hp]))

/-- C8: the upload tries servers in order and the first 200 wins — whatever
comes after it in the list is never consulted, the descriptor names that
server and carries the locally computed hash of the bytes; and when every
server fails the whole operation returns nothing. -/
theorem c8_first_success_wins (pre post : List (String × Option (Nat × Option String)))
    (s : String) (u : Option String) (fileData : List Nat) (ct : Option String)
    (now : Int) (hpre : ∀ p ∈ pre, uploadFails p.2 = true) :
    upload_blob (pre ++ (s, some (200, u)) :: post) fileData ct now =
      some
        { url := u.getD (s ++ "/" ++ calculate_file_hash fileData),
          sha256 := calculate_file_hash fileData, size := fileData.length,
          type := ct, server := s, uploaded := now } ∧
    (∀ servers2, (∀ p ∈ servers2, uploadFails p.2 = true) →
      upload_blob servers2 fileData ct now = none) := by
  constructor
  · unfold upload_blob
    induction pre with
    | nil => simp [upload_blob_go, upload_to_server]
    | cons hd rest ih =>
      obtain ⟨s0, r0⟩ := hd
      simp only [List.cons_append, upload_blob_go]
      rw [upload_to_server_fail _ _ _ _ _ _ (hpre (s0, r0) (by simp))]
      exact ih (fun p hp => hpre p (by simp [hp]))
  · intro servers2 h2
    exact upload_blob_go_all_fail servers2 fileData ct _ now h2

/-- Witness for C8: two failing servers (one offline, one rejecting), then an
accepting one followed by another; the accepting server's descriptor is
returned, and a list of only failing servers yields nothing. -/
theorem c8_witness :
    upload_blob
        [(("a" : String), (none : Option (Nat × Option String))),
         ("b", some (404, none)), ("c", some (200, none)), ("d", some (500, none))]
        [104] none 7 =
      some
        { url := "c" ++ "/" ++ calculate_file_hash [104],
          sha256 := calculate_file_hash [104], size := 1,
          type := none, server := "c", uploaded := 7 } ∧
    upload_blob [(("a" : String), (none : Option (Nat × Option String)))] [104] none 7 =
      none :=
  ⟨(c8_first_success_wins
      [(("a" : String), (none : Option (Nat × Option String))), ("b", some (404, none))]
      [("d", some (500, none))] "c" none [104] none 7 (by decide)).1,
   (c8_first_success_wins
      [(("a" : String), (none : Option (Nat × Option String))), ("b", some (404, none))]
      [("d", some (500, none))] "c" none [104] none 7 (by decide)).2
     [(("a" : String), (none : Option (Nat × Option String)))] (by decide)⟩

/-- The deletion success count is positive exactly when the starting count is
or some server answered 200, 204 or 404. -/
theorem delete_blob_go_pos (servers : List (String × Option Nat)) (acc : Nat) :
    0 < delete_blob_go servers acc ↔
      0 < acc ∨ ∃ p ∈ servers, ∃ status, p.2 = some status ∧
        (status = 200 ∨ status = 204 ∨ status = 404) := by
  induction servers generalizing acc with
  | nil => simp [delete_blob_go]
  | cons hd rest ih =>
    obtain ⟨s, resp⟩ := hd
    cases resp with
    | none =>
      simp only [delete_blob_go]
      rw [ih]
      simp
    | some status =>
      by_cases hs : status = 200 ∨ status = 204 ∨ status = 404
      · have hmem : status ∈ ([200, 204, 404] : List Nat) := by
          rcases hs with rfl | rfl | rfl <;> decide
        simp only [delete_blob_go, if_pos hmem]
        rw [ih]
        simp [hs]
      · have hmem : status ∉ ([200, 204, 404] : List Nat) := by
          intro hc
          simp at hc
          exact hs hc
        simp only [delete_blob_go, if_neg hmem]
        rw [ih]
        simp [hs]

/-- C9: delete succeeds exactly when at least one server answered deleted
(200 or 204) or not-found (404): an already-absent blob counts as success and
offline servers (exceptions) are skipped without failing the whole
operation. -/
theorem c9_delete_success_iff (servers : List (String × Option Nat)) :
    delete_blob servers = true ↔
      ∃ p ∈ servers, ∃ status, p.2 = some status ∧
        (status = 200 ∨ status = 204 ∨ status = 404) := by
  unfold delete_blob
  rw [decide_eq_true_iff, delete_blob_go_pos]
  simp

/-- C10: a validation attempt with a wrong candidate value rejects without
touching the store — in particular the stored challenge still validates with
its correct value afterwards, as long as it has not expired. -/
theorem c10_wrong_candidate_preserves_store (st : Store) (k cand : String)
    (entry : ChallengeEntry) (now : Int)
    (hget : Store.get st k = some entry) (hne : cand ≠ entry.challenge) :
    validate_challenge st k cand now = (false, st) ∧
    ∀ now2 : Int, ¬ (now2 - entry.created_at > 300) →
      validate_challenge st k entry.challenge now2 = (true, st) := by
  constructor
  · unfold validate_challenge
    rw [hget]
    have h1 : entry.challenge ≠ cand := fun h => hne h.symm
    simp [h1]
  · intro now2 hexp
    unfold validate_challenge
    rw [hget]
    simp [hexp]

/-- Witness for C10: a store holding one challenge; a wrong candidate is
rejected with the store intact and the right candidate still validates. -/
theorem c10_witness :
    validate_challenge [(("s" : String), (⟨"c", 0⟩ : ChallengeEntry))] "s" "d" 10 =
      (false, [(("s" : String), (⟨"c", 0⟩ : ChallengeEntry))]) ∧
    validate_challenge [(("s" : String), (⟨"c", 0⟩ : ChallengeEntry))] "s" "c" 10 =
      (true, [(("s" : String), (⟨"c", 0⟩ : ChallengeEntry))]) :=
  ⟨(c10_wrong_candidate_preserves_store
      [(("s" : String), (⟨"c", 0⟩ : ChallengeEntry))] "s" "d" ⟨"c", 0⟩ 10
      (by decide) (by decide)).1,
   (c10_wrong_candidate_preserves_store
      [(("s" : String), (⟨"c", 0⟩ : ChallengeEntry))] "s" "d" ⟨"c", 0⟩ 10
      (by decide) (by decide)).2 10 (by decide)⟩
